import Mathlib

/-!
Shallow embedding of `src/process_large_file.py` (class `FraudDetector`),
the streaming aggregation and scoring engine of the Medicaid fraud
detector.  Monetary and count fields are modelled exactly (`ℚ`, `ℤ`);
the z-score pipeline, which divides by a sample standard deviation
(a square root), lives in `ℝ`.
-/

/-- A raw CSV row after pandas `to_numeric(..., errors='coerce')`:
a failed numeric parse (NaN) is `none`, later filled with 0
(`.fillna(0)`).  `billing_npi = none` models a null provider id
(the `.notna()` check on line 109). -/
structure RawRow where
  billing_npi : Option String
  procedure_code : String
  claim_month : String
  beneficiaries : Option ℤ
  claims : Option ℤ
  paid : Option ℚ
deriving DecidableEq, Repr

/-- A validated transaction row with the derived unit-economics fields
(lines 103-120 of the source). -/
structure Row where
  billing_npi : String
  procedure_code : String
  claim_month : String
  beneficiaries : ℤ
  claims : ℤ
  paid : ℚ
  cost_per_claim : ℚ
  claims_per_beneficiary : ℚ
deriving DecidableEq, Repr

instance : Inhabited Row :=
  ⟨⟨"", "", "", 0, 0, 0, 0, 0⟩⟩

/-- Coercion `pd.to_numeric(...).fillna(0)` for the integer columns. -/
def coerceInt (v : Option ℤ) : ℤ := v.getD 0

/-- Coercion `pd.to_numeric(...).fillna(0)` for the `paid` column. -/
def coerceRat (v : Option ℚ) : ℚ := v.getD 0

/-- The row filter of lines 108-113: non-null provider id and strictly
positive paid / claims / beneficiaries. -/
def rowValid (r : RawRow) : Bool :=
  r.billing_npi.isSome && decide (0 < coerceRat r.paid)
    && decide (0 < coerceInt r.claims) && decide (0 < coerceInt r.beneficiaries)

/-- Build the validated row with derived metrics (lines 119-120):
`cost_per_claim = paid / claims`, `claims_per_beneficiary =
claims / beneficiaries`.  Only applied to rows passing `rowValid`,
so the divisors are positive. -/
def toRow (r : RawRow) : Row :=
  { billing_npi := r.billing_npi.getD ""
    procedure_code := r.procedure_code
    claim_month := r.claim_month
    beneficiaries := coerceInt r.beneficiaries
    claims := coerceInt r.claims
    paid := coerceRat r.paid
    cost_per_claim := coerceRat r.paid / (coerceInt r.claims : ℚ)
    claims_per_beneficiary := (coerceInt r.claims : ℚ) / (coerceInt r.beneficiaries : ℚ) }

/-- The validated rows a chunk contributes (filter, then derive). -/
def validRows (rows : List RawRow) : List Row :=
  (rows.filter rowValid).map toRow

/-- One input chunk: its (raw) column names and its rows.  Cell
extraction by column name is dataframe mechanics; a row is modelled as
already carrying the canonical fields, while `cols` drives the
schema check of lines 77-98. -/
structure Chunk where
  cols : List String
  rows : List RawRow

/-- Column-name normalization `str.upper()` of line 75.  Same
character mapping as `String.toUpper`, implemented over the character
list so that it evaluates inside the kernel. -/
def upcase (s : String) : String := ⟨s.data.map Char.toUpper⟩

/-- The `required_cols` alias table of lines 78-86: canonical target
name paired with the accepted source-column aliases, in order. -/
def requiredCols : List (String × List String) :=
  [("billing_npi", ["BILLING_PROVIDER_NPI_NUM", "BILLING_NPI", "NPI"]),
   ("servicing_npi", ["SERVICING_PROVIDER_NPI_NUM", "SERVICING_NPI"]),
   ("procedure_code", ["HCPCS_CODE", "PROCEDURE_CODE", "CODE"]),
   ("claim_month", ["CLAIM_FROM_MONTH", "CLAIM_MONTH", "MONTH"]),
   ("beneficiaries", ["TOTAL_UNIQUE_BENEFICIARIES", "BENEFICIARIES", "BENE_COUNT"]),
   ("claims", ["TOTAL_CLAIMS", "CLAIMS", "CLAIM_COUNT"]),
   ("paid", ["TOTAL_PAID", "PAID", "AMOUNT"])]

/-- Resolve one canonical field against the chunk's columns: the first
alias present, paired as (source name, target name), mirroring
`col_map[name] = target` with the inner `break` (lines 89-94). -/
def resolveCol (cols : List String) (p : String × List String) : Option (String × String) :=
  (p.2.find? (fun n => cols.contains n)).map (fun n => (n, p.1))

/-- The `col_map` built on lines 89-94.  In the source it is a dict
keyed by source-column name; the alias lists of `requiredCols` are
pairwise disjoint, so its size equals the number of resolved targets. -/
def colMap (cols : List String) : List (String × String) :=
  requiredCols.filterMap (resolveCol cols)

/-- Per-procedure benchmark accumulator (`procedure_benchmarks`):
code ↦ (observed cost-per-claim values, observed claims-per-beneficiary
values).  A code never observed maps to `([], [])`. -/
def Benchmarks : Type := String → List ℚ × List ℚ

/-- Method `_update_benchmarks` (lines 156-168): extend each present code's
collections with the chunk's values for that code. -/
def updateBenchmarks (b : Benchmarks) (rows : List Row) : Benchmarks :=
  fun code =>
    ((b code).1 ++ (rows.filter (fun r => r.procedure_code = code)).map (fun r => r.cost_per_claim),
     (b code).2 ++ (rows.filter (fun r => r.procedure_code = code)).map (fun r => r.claims_per_beneficiary))

/-- Per-provider rollup record (`provider_stats` values, lines 182-187). -/
structure ProviderStat where
  total_spending : ℚ
  total_claims : ℤ
  total_beneficiaries : ℤ
  unique_procedures : ℕ
deriving DecidableEq, Repr

/-- Map `provider_stats`: provider id ↦ rollup; `none` = never seen. -/
def ProviderStats : Type := String → Option ProviderStat

/-- Rows of a chunk belonging to one provider (the groupby of line 172). -/
def providerRows (rows : List Row) (npi : String) : List Row :=
  rows.filter (fun r => r.billing_npi = npi)

/-- Batch-level distinct-procedure count for a provider
(`'procedure_code': 'nunique'` on line 176). -/
def nuniqueProcs (rows : List Row) (npi : String) : ℕ :=
  ((providerRows rows npi).map (fun r => r.procedure_code)).dedup.length

/-- Method `_update_provider_stats` (lines 170-195): for each provider present
in the chunk, add the batch sums to the running totals and take the max
of the prior `unique_procedures` and the batch distinct count. -/
def updateProviderStats (ps : ProviderStats) (rows : List Row) : ProviderStats :=
  fun npi =>
    if rows.any (fun r => r.billing_npi = npi) then
      let prev := (ps npi).getD ⟨0, 0, 0, 0⟩
      some ⟨prev.total_spending + ((providerRows rows npi).map (fun r => r.paid)).sum,
            prev.total_claims + ((providerRows rows npi).map (fun r => r.claims)).sum,
            prev.total_beneficiaries + ((providerRows rows npi).map (fun r => r.beneficiaries)).sum,
            max prev.unique_procedures (nuniqueProcs rows npi)⟩
    else ps npi

/-- The accumulation state of Phase 1: the transaction buffer
(`all_transactions`), the benchmark accumulator and the provider
rollup accumulator. -/
structure PState where
  transactions : List Row
  benchmarks : Benchmarks
  providers : ProviderStats

def initState : PState :=
  ⟨[], fun _ => ([], []), fun _ => none⟩

/-- One iteration of the chunk loop (lines 67-129): uppercase the
column names, skip the chunk when `len(col_map) < len(required_cols)`
(line 96-98), validate rows, skip when no row survives (lines 115-116),
otherwise extend the buffer and both accumulators. -/
def processChunk (st : PState) (c : Chunk) : PState :=
  let cols := c.cols.map upcase
  if (colMap cols).length < requiredCols.length then st
  else
    let rows := validRows c.rows
    if rows.length = 0 then st
    else
      ⟨st.transactions ++ rows,
       updateBenchmarks st.benchmarks rows,
       updateProviderStats st.providers rows⟩

/-- Phase 1 over the whole file: fold the chunk loop from the empty
state, in file order. -/
def processFile (chunks : List Chunk) : PState :=
  chunks.foldl processChunk initState

/-! ### Phase 2: the scoring pass (`_calculate_fraud_scores`, lines 197-283) -/

/-- Mean `pandas.Series.mean`: sum divided by length. -/
noncomputable def listMean (l : List ℝ) : ℝ := l.sum / l.length

/-- Square of `pandas.Series.std()` — the sample variance with the
default `ddof=1`: `Σ (x − mean)² / (n − 1)`.  Only applied to groups
of at least 3 values. -/
noncomputable def sampleVar (l : List ℝ) : ℝ :=
  ((l.map (fun x => (x - listMean l) ^ 2)).sum) / ((l.length : ℝ) - 1)

/-- Standard deviation `pandas.Series.std()` with `ddof=1`. -/
noncomputable def sampleStd (l : List ℝ) : ℝ := Real.sqrt (sampleVar l)

/-- The rows sharing one procedure code (`df[mask]` for
`mask = df['procedure_code'] == proc_code`, lines 205-207). -/
def procGroup (rows : List Row) (code : String) : List Row :=
  rows.filter (fun r => r.procedure_code = code)

/-- The cost-per-claim values of a row's procedure group, as reals. -/
noncomputable def groupCosts (rows : List Row) (r : Row) : List ℝ :=
  (procGroup rows r.procedure_code).map (fun s => (s.cost_per_claim : ℝ))

/-- The claims-per-beneficiary values of a row's procedure group. -/
noncomputable def groupCpbs (rows : List Row) (r : Row) : List ℝ :=
  (procGroup rows r.procedure_code).map (fun s => (s.claims_per_beneficiary : ℝ))

/-- The `cost_z_score` column (lines 202-216): initialized to 0,
written only for rows of a code with at least 3 observations and a
strictly positive sample standard deviation of cost-per-claim. -/
noncomputable def costZ (rows : List Row) (r : Row) : ℝ :=
  if (procGroup rows r.procedure_code).length < 3 then 0
  else if 0 < sampleStd (groupCosts rows r) then
    ((r.cost_per_claim : ℝ) - listMean (groupCosts rows r)) / sampleStd (groupCosts rows r)
  else 0

/-- The `claims_per_ben_z_score` column (lines 202-222), analogous. -/
noncomputable def cpbZ (rows : List Row) (r : Row) : ℝ :=
  if (procGroup rows r.procedure_code).length < 3 then 0
  else if 0 < sampleStd (groupCpbs rows r) then
    ((r.claims_per_beneficiary : ℝ) - listMean (groupCpbs rows r)) / sampleStd (groupCpbs rows r)
  else 0

/-- The fixed 5-dimensional ML feature vector of line 233. -/
structure Feat where
  cost_per_claim : ℚ
  claims_per_beneficiary : ℚ
  paid : ℚ
  claims : ℤ
  beneficiaries : ℤ
deriving DecidableEq, Repr

instance : Inhabited Feat := ⟨⟨0, 0, 0, 0, 0⟩⟩

def featuresOf (r : Row) : Feat :=
  ⟨r.cost_per_claim, r.claims_per_beneficiary, r.paid, r.claims, r.beneficiaries⟩

/-- Sampling: `np.random.choice(n, k, replace=False)` draws from the *global*
NumPy random state, which `process_large_file.py` never seeds.  The
global state is therefore a free input of the run, modelled as a
stream `rand` of naturals; selection without replacement walks a pool
of the indices `0..n-1`, each step removing the chosen index.
First argument of `choiceAux` is the number of draws still to make,
then the position in the stream, then the remaining pool. -/
def choiceAux (rand : ℕ → ℕ) : ℕ → ℕ → List ℕ → List ℕ
  | 0, _, _ => []
  | k + 1, step, pool =>
    if pool.length = 0 then []
    else
      pool.getD (rand step % pool.length) 0 ::
        choiceAux rand k (step + 1) (pool.eraseIdx (rand step % pool.length))

/-- Selection `np.random.choice(n, k, replace=False)` as a function of the
ambient global random state `rand` (line 239 of the source). -/
def choiceNoReplace (rand : ℕ → ℕ) (n k : ℕ) : List ℕ :=
  choiceAux rand k 0 (List.range n)

/-- The training set of the ML pass (lines 236-256): when the
population exceeds 100,000 rows, the 100,000-row sample drawn by
`np.random.choice`; otherwise the full population.  Both the
`StandardScaler` and the `IsolationForest` are fitted on exactly this
set and then applied to every row. -/
def mlTrain (rand : ℕ → ℕ) (xs : List Feat) : List Feat :=
  if 100000 < xs.length then
    (choiceNoReplace rand xs.length 100000).map (fun i => xs.getD i default)
  else xs

/-- The `is_ml_anomaly` column: the scaler-plus-isolation-forest
pipeline is abstracted as `fitPredict`, a function of the training
set returning the per-row outlier verdict (`prediction == -1`);
it is applied to every row of the full population (lines 250, 256). -/
def mlPass (fitPredict : List Feat → Feat → Bool) (rand : ℕ → ℕ) (xs : List Feat) : List Bool :=
  xs.map (fitPredict (mlTrain rand xs))

/-- Count of population values strictly below `x`. -/
def countLt (l : List ℚ) (x : ℚ) : ℕ := (l.filter (fun v => v < x)).length

/-- Count of population values equal to `x` (the row itself included). -/
def countEq (l : List ℚ) (x : ℚ) : ℕ := (l.filter (fun v => v = x)).length

/-- Fractional rank `df['paid'].rank(pct=True)` (line 274), pandas default tie method
`'average'`: the average 1-based rank of the tied block containing
`x` — `countLt + (countEq + 1)/2` — divided by the population size. -/
def rankPct (l : List ℚ) (x : ℚ) : ℚ :=
  ((countLt l x : ℚ) + ((countEq l x : ℚ) + 1) / 2) / (l.length : ℚ)

/-- The high-spending condition of line 275:
`spending_percentile > 0.95`, a strict comparison of the fractional
rank against 0.95. -/
def highSpendFlag (l : List ℚ) (x : ℚ) : Bool :=
  decide (19 / 20 < rankPct l x)

/-- Insertion into an ascending list (for `sortAsc`). -/
def insertSorted (x : ℚ) : List ℚ → List ℚ
  | [] => [x]
  | y :: ys => if x ≤ y then x :: y :: ys else y :: insertSorted x ys

/-- Insertion sort, ascending. -/
def sortAsc (l : List ℚ) : List ℚ := l.foldr insertSorted []

/-- Modelled from the spec: "the 95th percentile of paid amounts
across the whole population" (nearest-rank definition: the value at
1-based position ⌈0.95·n⌉ of the sorted population).  The source has
no such quantity — line 274 computes a fractional rank instead; this
definition exists only to state the spec's boundary condition. -/
def percentile95 (l : List ℚ) : ℚ :=
  (sortAsc l).getD ((19 * l.length + 19) / 20 - 1) 0

/-- One clause of the composite score (lines 265, 268):
`np.minimum(30, z * 5)` added exactly when `z > 3`. -/
noncomputable def contribution (z : ℝ) : ℝ :=
  if 3 < z then min 30 (z * 5) else 0

/-- The composite fraud-risk score of lines 262-278: start at 0, add
the capped z-cost and z-cpb contributions, 25 for an ML flag, 15 for
the high-spending condition, and clamp with `np.minimum(100, ·)`. -/
noncomputable def fraudRiskScore (zc zv : ℝ) (ml hs : Bool) : ℝ :=
  min 100 (0 + contribution zc + contribution zv
    + (if ml then 25 else 0) + (if hs then 15 else 0))

/-- A scored row: the transaction row extended with the columns added
by `_calculate_fraud_scores`. -/
structure ScoredRow where
  row : Row
  cost_z : ℝ
  cpb_z : ℝ
  is_cost_anomaly : Bool
  is_volume_anomaly : Bool
  is_ml_anomaly : Bool
  fraud_risk_score : ℝ

instance : Inhabited ScoredRow :=
  ⟨⟨default, 0, 0, false, false, false, 0⟩⟩

/-- The scored row at position `i` of the buffered table, given the
ML flag column. -/
noncomputable def scoreRow (rows : List Row) (mlFlags : List Bool) (i : ℕ) : ScoredRow :=
  let r := rows.getD i default
  let zc := costZ rows r
  let zv := cpbZ rows r
  { row := r
    cost_z := zc
    cpb_z := zv
    is_cost_anomaly := decide (3 < zc)
    is_volume_anomaly := decide (3 < zv)
    is_ml_anomaly := mlFlags.getD i false
    fraud_risk_score :=
      fraudRiskScore zc zv (mlFlags.getD i false)
        (highSpendFlag (rows.map (fun s => s.paid)) r.paid) }

/-- Method `_calculate_fraud_scores` in full: z-scores and flags per row
(lines 202-226), the ML flag column (lines 232-256), and the composite
score (lines 262-278), aligned by row index as the dataframe columns
are. -/
noncomputable def scoreRows (fitPredict : List Feat → Feat → Bool) (rand : ℕ → ℕ)
    (rows : List Row) : List ScoredRow :=
  (List.range rows.length).map (scoreRow rows (mlPass fitPredict rand (rows.map featuresOf)))

/-! ### Helper lemmas -/

theorem contribution_nonneg (z : ℝ) : 0 ≤ contribution z := by
  unfold contribution
  split
  · exact le_min (by norm_num) (by linarith)
  · exact le_refl 0

theorem contribution_gt_15 {z : ℝ} (h : 3 < z) : 15 < contribution z := by
  unfold contribution
  rw [if_pos h]
  exact lt_min (by norm_num) (by linarith)

theorem indicator_nonneg (b : Bool) (c : ℝ) (hc : 0 ≤ c) :
    0 ≤ if b then c else 0 := by
  split
  · exact hc
  · exact le_refl 0

theorem fraudRiskScore_bounds (zc zv : ℝ) (ml hs : Bool) :
    0 ≤ fraudRiskScore zc zv ml hs ∧ fraudRiskScore zc zv ml hs ≤ 100 := by
  unfold fraudRiskScore
  refine ⟨le_min (by norm_num) ?_, min_le_left _ _⟩
  have h1 := contribution_nonneg zc
  have h2 := contribution_nonneg zv
  have h3 := indicator_nonneg ml 25 (by norm_num)
  have h4 := indicator_nonneg hs 15 (by norm_num)
  linarith

theorem fraudRiskScore_gt_15 (zc zv : ℝ) (ml hs : Bool)
    (h : 3 < zc ∨ 3 < zv ∨ ml = true) : 15 < fraudRiskScore zc zv ml hs := by
  unfold fraudRiskScore
  apply lt_min (by norm_num)
  have h1 := contribution_nonneg zc
  have h2 := contribution_nonneg zv
  have h3 := indicator_nonneg ml 25 (by norm_num)
  have h4 := indicator_nonneg hs 15 (by norm_num)
  rcases h with h | h | h
  · have := contribution_gt_15 h
    linarith
  · have := contribution_gt_15 h
    linarith
  · rw [h] at h3 ⊢
    simp only [if_true]
    linarith

theorem listGetD_mem {α : Type} [Inhabited α] (l : List α) (i : ℕ) (h : i < l.length) :
    l.getD i default ∈ l := by
  rw [List.getD_eq_getElem?_getD, List.getElem?_eq_getElem h]
  exact List.getElem_mem h

theorem scoreRows_length (fp : List Feat → Feat → Bool) (rand : ℕ → ℕ) (rows : List Row) :
    (scoreRows fp rand rows).length = rows.length := by
  simp [scoreRows]

theorem scoreRows_getD (fp : List Feat → Feat → Bool) (rand : ℕ → ℕ) (rows : List Row)
    (i : ℕ) (h : i < rows.length) :
    (scoreRows fp rand rows).getD i default
      = scoreRow rows (mlPass fp rand (rows.map featuresOf)) i := by
  have h1 : i < ((List.range rows.length).map
      (scoreRow rows (mlPass fp rand (rows.map featuresOf)))).length := by
    simpa using h
  unfold scoreRows
  rw [List.getD_eq_getElem?_getD, List.getElem?_eq_getElem h1, List.getElem_map,
    List.getElem_range]
  rfl

theorem mem_scoreRows {fp : List Feat → Feat → Bool} {rand : ℕ → ℕ} {rows : List Row}
    {s : ScoredRow} (h : s ∈ scoreRows fp rand rows) :
    ∃ i, i < rows.length ∧ s = scoreRow rows (mlPass fp rand (rows.map featuresOf)) i := by
  unfold scoreRows at h
  rcases List.mem_map.mp h with ⟨i, hi, rfl⟩
  exact ⟨i, List.mem_range.mp hi, rfl⟩

/-! ### Claim theorems: the composite score and the anomaly flags -/

/-- C1: for every input dataset and every scored row, the composite
fraud-risk score lies in [0, 100]: the accumulation starts at 0, every
contribution is non-negative, and the sum is clamped with
`min(100, accumulated)`. -/
theorem composite_score_in_range (fp : List Feat → Feat → Bool) (rand : ℕ → ℕ)
    (rows : List Row) (s : ScoredRow) (h : s ∈ scoreRows fp rand rows) :
    0 ≤ s.fraud_risk_score ∧ s.fraud_risk_score ≤ 100 := by
  rcases mem_scoreRows h with ⟨i, hi, rfl⟩
  exact fraudRiskScore_bounds _ _ _ _

def fpFalse : List Feat → Feat → Bool := fun _ _ => false

def fpTrue : List Feat → Feat → Bool := fun _ _ => true

def rand0 : ℕ → ℕ := fun _ => 0

def wRowA : Row := ⟨"N1", "A", "2024-01", 1, 1, 1, 1, 1⟩

theorem composite_score_in_range_witness :
    0 ≤ ((scoreRows fpFalse rand0 [wRowA]).getD 0 default).fraud_risk_score ∧
      ((scoreRows fpFalse rand0 [wRowA]).getD 0 default).fraud_risk_score ≤ 100 :=
  composite_score_in_range fpFalse rand0 [wRowA] _
    (listGetD_mem _ 0 (by simp [scoreRows_length]))

/-- C5: for every scored row, `is_cost_anomaly` holds iff the row's
cost z-score is strictly greater than 3, and `is_volume_anomaly` holds
iff the claims-per-beneficiary z-score is strictly greater than 3;
each flag is determined by its z-score alone. -/
theorem anomaly_flags_iff_zscores (fp : List Feat → Feat → Bool) (rand : ℕ → ℕ)
    (rows : List Row) (s : ScoredRow) (h : s ∈ scoreRows fp rand rows) :
    (s.is_cost_anomaly = true ↔ 3 < s.cost_z) ∧
      (s.is_volume_anomaly = true ↔ 3 < s.cpb_z) := by
  rcases mem_scoreRows h with ⟨i, hi, rfl⟩
  constructor <;> simp [scoreRow]

theorem anomaly_flags_iff_zscores_witness :
    (((scoreRows fpFalse rand0 [wRowA]).getD 0 default).is_cost_anomaly = true ↔
        3 < ((scoreRows fpFalse rand0 [wRowA]).getD 0 default).cost_z) ∧
      (((scoreRows fpFalse rand0 [wRowA]).getD 0 default).is_volume_anomaly = true ↔
        3 < ((scoreRows fpFalse rand0 [wRowA]).getD 0 default).cpb_z) :=
  anomaly_flags_iff_zscores fpFalse rand0 [wRowA] _
    (listGetD_mem _ 0 (by simp [scoreRows_length]))

/-- C10: every scored row carrying at least one of the three anomaly
flags has a composite score strictly greater than 15: a cost or
volume flag implies a z-score above 3 and hence a capped contribution
above 15, and an ML flag contributes exactly 25. -/
theorem flagged_row_score_exceeds_15 (fp : List Feat → Feat → Bool) (rand : ℕ → ℕ)
    (rows : List Row) (s : ScoredRow) (hmem : s ∈ scoreRows fp rand rows)
    (hflag : s.is_cost_anomaly = true ∨ s.is_volume_anomaly = true ∨
      s.is_ml_anomaly = true) :
    15 < s.fraud_risk_score := by
  rcases mem_scoreRows hmem with ⟨i, hi, rfl⟩
  unfold scoreRow at hflag ⊢
  apply fraudRiskScore_gt_15
  rcases hflag with h | h | h
  · exact Or.inl (of_decide_eq_true h)
  · exact Or.inr (Or.inl (of_decide_eq_true h))
  · exact Or.inr (Or.inr h)

theorem flagged_row_score_exceeds_15_witness :
    15 < ((scoreRows fpTrue rand0 [wRowA]).getD 0 default).fraud_risk_score := by
  apply flagged_row_score_exceeds_15 fpTrue rand0 [wRowA] _
    (listGetD_mem _ 0 (by simp [scoreRows_length]))
  right; right
  rw [scoreRows_getD fpTrue rand0 [wRowA] 0 (by norm_num)]
  simp [scoreRow, mlPass, mlTrain, fpTrue]

/-- C4: for every scored row on which all four contribution conditions
hold — `z_cost > 3`, `z_cpb > 3`, the ML flag and the spend-percentile
condition — the composite score equals exactly
`min(100, min(30, 5·z_cost) + min(30, 5·z_cpb) + 25 + 15)`. -/
theorem all_four_signals_score (fp : List Feat → Feat → Bool) (rand : ℕ → ℕ)
    (rows : List Row) (s : ScoredRow) (hmem : s ∈ scoreRows fp rand rows)
    (h1 : 3 < s.cost_z) (h2 : 3 < s.cpb_z) (h3 : s.is_ml_anomaly = true)
    (h4 : highSpendFlag (rows.map (fun r => r.paid)) s.row.paid = true) :
    s.fraud_risk_score
      = min 100 (min 30 (5 * s.cost_z) + min 30 (5 * s.cpb_z) + 25 + 15) := by
  rcases mem_scoreRows hmem with ⟨i, hi, rfl⟩
  simp only [scoreRow] at h1 h2 h3 h4 ⊢
  rw [h3, h4]
  unfold fraudRiskScore contribution
  rw [if_pos h1, if_pos h2]
  simp only [if_true]
  congr 1
  ring_nf

/-- An outlier row of code "A": cost-per-claim 2 and
claims-per-beneficiary 2 against a background of fifteen rows at 1. -/
def wRowB : Row := ⟨"N1", "A", "2024-01", 1, 2, 4, 2, 2⟩

/-- Sixteen rows of one procedure code: fifteen at unit cost and unit
utilization plus one outlier.  Sample mean 17/16, sample standard
deviation 1/4, so the outlier's z-scores are both 15/4 > 3. -/
def wRows16 : List Row :=
  [wRowA, wRowA, wRowA, wRowA, wRowA, wRowA, wRowA, wRowA,
   wRowA, wRowA, wRowA, wRowA, wRowA, wRowA, wRowA, wRowB]

theorem wRows16_mean :
    listMean [(1:ℝ),1,1,1,1,1,1,1,1,1,1,1,1,1,1,2] = 17/16 := by
  norm_num [listMean, List.sum_cons]

theorem wRows16_var :
    sampleVar [(1:ℝ),1,1,1,1,1,1,1,1,1,1,1,1,1,1,2] = 1/16 := by
  norm_num [sampleVar, wRows16_mean, List.sum_cons]

theorem wRows16_std :
    sampleStd [(1:ℝ),1,1,1,1,1,1,1,1,1,1,1,1,1,1,2] = 1/4 := by
  rw [sampleStd, wRows16_var, show (1/16:ℝ) = (1/4)^2 by norm_num,
    Real.sqrt_sq (by norm_num : (0:ℝ) ≤ 1/4)]

theorem wRows16_costZ : costZ wRows16 wRowB = 15/4 := by
  have hg : procGroup wRows16 wRowB.procedure_code = wRows16 := by decide
  have hc : groupCosts wRows16 wRowB = [(1:ℝ),1,1,1,1,1,1,1,1,1,1,1,1,1,1,2] := by
    rw [groupCosts, hg]
    norm_num [wRows16, wRowA, wRowB]
  unfold costZ
  rw [hg, hc, wRows16_std, wRows16_mean]
  norm_num [wRows16, wRowB]

theorem wRows16_cpbZ : cpbZ wRows16 wRowB = 15/4 := by
  have hg : procGroup wRows16 wRowB.procedure_code = wRows16 := by decide
  have hc : groupCpbs wRows16 wRowB = [(1:ℝ),1,1,1,1,1,1,1,1,1,1,1,1,1,1,2] := by
    rw [groupCpbs, hg]
    norm_num [wRows16, wRowA, wRowB]
  unfold cpbZ
  rw [hg, hc, wRows16_std, wRows16_mean]
  norm_num [wRows16, wRowB]

theorem all_four_signals_score_witness :
    (3 < ((scoreRows fpTrue rand0 wRows16).getD 15 default).cost_z ∧
      3 < ((scoreRows fpTrue rand0 wRows16).getD 15 default).cpb_z ∧
      ((scoreRows fpTrue rand0 wRows16).getD 15 default).is_ml_anomaly = true ∧
      highSpendFlag (wRows16.map (fun r => r.paid))
        ((scoreRows fpTrue rand0 wRows16).getD 15 default).row.paid = true) ∧
    ((scoreRows fpTrue rand0 wRows16).getD 15 default).fraud_risk_score
      = min 100 (min 30 (5 * ((scoreRows fpTrue rand0 wRows16).getD 15 default).cost_z)
          + min 30 (5 * ((scoreRows fpTrue rand0 wRows16).getD 15 default).cpb_z)
          + 25 + 15) := by
  have hlen : (15:ℕ) < wRows16.length := by norm_num [wRows16]
  have hs : (scoreRows fpTrue rand0 wRows16).getD 15 default
      = scoreRow wRows16 (mlPass fpTrue rand0 (wRows16.map featuresOf)) 15 :=
    scoreRows_getD fpTrue rand0 wRows16 15 hlen
  have hrow : wRows16.getD 15 default = wRowB := by decide
  have h1 : 3 < ((scoreRows fpTrue rand0 wRows16).getD 15 default).cost_z := by
    rw [hs]; simp only [scoreRow]; rw [hrow, wRows16_costZ]; norm_num
  have h2 : 3 < ((scoreRows fpTrue rand0 wRows16).getD 15 default).cpb_z := by
    rw [hs]; simp only [scoreRow]; rw [hrow, wRows16_cpbZ]; norm_num
  have h3 : ((scoreRows fpTrue rand0 wRows16).getD 15 default).is_ml_anomaly = true := by
    rw [hs]; simp only [scoreRow]; decide
  have h4 : highSpendFlag (wRows16.map (fun r => r.paid))
      ((scoreRows fpTrue rand0 wRows16).getD 15 default).row.paid = true := by
    rw [hs]; simp only [scoreRow]; rw [hrow]
    norm_num [highSpendFlag, rankPct, countLt, countEq, wRows16, wRowA, wRowB, List.filter]
  exact ⟨⟨h1, h2, h3, h4⟩,
    all_four_signals_score fpTrue rand0 wRows16 _
      (listGetD_mem _ 15 (by simpa [scoreRows_length] using hlen)) h1 h2 h3 h4⟩

/-- C6: rows of a procedure code with fewer than 3 observations keep
both z-scores at 0; and for a code with at least 3 observations whose
sample standard deviation of a metric is 0, that metric's z-score is 0
for every row of the code. -/
theorem zscore_neutral_small_or_constant (rows : List Row) (r : Row) :
    ((procGroup rows r.procedure_code).length < 3 →
      costZ rows r = 0 ∧ cpbZ rows r = 0) ∧
    (3 ≤ (procGroup rows r.procedure_code).length →
      (sampleStd (groupCosts rows r) = 0 → costZ rows r = 0) ∧
      (sampleStd (groupCpbs rows r) = 0 → cpbZ rows r = 0)) := by
  constructor
  · intro h
    constructor
    · unfold costZ; rw [if_pos h]
    · unfold cpbZ; rw [if_pos h]
  · intro h
    constructor
    · intro hstd
      unfold costZ
      rw [if_neg (by omega), hstd]
      simp
    · intro hstd
      unfold cpbZ
      rw [if_neg (by omega), hstd]
      simp

theorem zscore_neutral_small_or_constant_witness :
    (costZ [wRowA, wRowA] wRowA = 0 ∧ cpbZ [wRowA, wRowA] wRowA = 0) ∧
    costZ [wRowA, wRowA, wRowA] wRowA = 0 := by
  have hg : groupCosts [wRowA, wRowA, wRowA] wRowA = [(1:ℝ), 1, 1] := by
    norm_num [groupCosts, procGroup, wRowA, List.filter]
  have hstd : sampleStd (groupCosts [wRowA, wRowA, wRowA] wRowA) = 0 := by
    rw [hg, sampleStd,
      show sampleVar [(1:ℝ), 1, 1] = 0 by norm_num [sampleVar, listMean, List.sum_cons],
      Real.sqrt_zero]
  exact ⟨(zscore_neutral_small_or_constant [wRowA, wRowA] wRowA).1 (by decide),
    ((zscore_neutral_small_or_constant [wRowA, wRowA, wRowA] wRowA).2 (by decide)).1 hstd⟩

/-- A row paid 10 (cost-per-claim 10, one claim, one beneficiary). -/
def wRowP : Row := ⟨"N1", "A", "2024-01", 1, 1, 10, 10, 1⟩

/-- C2 counterexample: in a population of two rows with equal paid
amount 10, each row's paid amount is at (hence at or above) the 95th
percentile of paid amounts, yet the high-spending condition of line
275 is false for both — the fractional rank is 3/4 — and the scored
row receives no 15-point contribution (its composite score is 0). -/
theorem spend_percentile_boundary_cex :
    percentile95 ([wRowP, wRowP].map (fun r => r.paid)) ≤ wRowP.paid ∧
    highSpendFlag ([wRowP, wRowP].map (fun r => r.paid)) wRowP.paid = false ∧
    ((scoreRows fpFalse rand0 [wRowP, wRowP]).getD 0 default).fraud_risk_score = 0 := by
  refine ⟨?_, ?_, ?_⟩
  · norm_num [percentile95, sortAsc, insertSorted, wRowP]
  · norm_num [highSpendFlag, rankPct, countLt, countEq, wRowP, List.filter]
  · rw [scoreRows_getD fpFalse rand0 [wRowP, wRowP] 0 (by norm_num)]
    simp only [scoreRow]
    have hrow : ([wRowP, wRowP] : List Row).getD 0 default = wRowP := rfl
    rw [hrow]
    have hz1 : costZ [wRowP, wRowP] wRowP = 0 := by
      unfold costZ; rw [if_pos (by decide)]
    have hz2 : cpbZ [wRowP, wRowP] wRowP = 0 := by
      unfold cpbZ; rw [if_pos (by decide)]
    rw [hz1, hz2]
    have hml : (mlPass fpFalse rand0 ([wRowP, wRowP].map featuresOf)).getD 0 false
        = false := by decide
    rw [hml]
    have hhs : highSpendFlag ([wRowP, wRowP].map (fun s => s.paid)) wRowP.paid
        = false := by
      norm_num [highSpendFlag, rankPct, countLt, countEq, wRowP, List.filter]
    rw [hhs]
    norm_num [fraudRiskScore, contribution]

/-- C2 (amended): the 15-point spend contribution is granted exactly
when the row's fractional percentile rank of paid amount — the pandas
average rank divided by the population size — strictly exceeds 0.95;
combinatorially, with `n` the population size, exactly when
`19·n < 10·(2·|{paid values < paid}| + |{paid values = paid}| + 1)`.
A row whose paid amount merely equals the 95th-percentile value need
not receive the contribution. -/
theorem spend_flag_rank_characterization (l : List ℚ) (x : ℚ) (h : x ∈ l) :
    highSpendFlag l x = true ↔
      19 * l.length < 10 * (2 * countLt l x + countEq l x + 1) := by
  have hn : 0 < l.length := List.length_pos.mpr (List.ne_nil_of_mem h)
  have hn' : (0:ℚ) < (l.length : ℚ) := by exact_mod_cast hn
  rw [highSpendFlag, decide_eq_true_eq, rankPct,
    div_lt_div_iff₀ (by norm_num) hn']
  have key : ((countLt l x : ℚ) + ((countEq l x : ℚ) + 1) / 2) * 20
      = ((10 * (2 * countLt l x + countEq l x + 1) : ℕ) : ℚ) := by
    push_cast
    ring
  rw [key]
  exact_mod_cast Iff.rfl

/-- Twenty-one distinct paid amounts. -/
def wPaids21 : List ℚ :=
  [1, 2, 3, 4, 5, 6, 7, 8, 9, 10, 11, 12, 13, 14, 15, 16, 17, 18, 19, 20, 21]

theorem spend_flag_rank_characterization_witness :
    (21:ℚ) ∈ wPaids21 ∧
      (highSpendFlag wPaids21 21 = true ↔
        19 * wPaids21.length < 10 * (2 * countLt wPaids21 21 + countEq wPaids21 21 + 1)) :=
  ⟨by decide, spend_flag_rank_characterization wPaids21 21 (by decide)⟩

theorem choiceAux_length (rand : ℕ → ℕ) :
    ∀ (k step : ℕ) (pool : List ℕ),
      (choiceAux rand k step pool).length = min k pool.length := by
  intro k
  induction k with
  | zero => intro step pool; simp [choiceAux]
  | succ k ih =>
    intro step pool
    unfold choiceAux
    by_cases h : pool.length = 0
    · rw [if_pos h]
      simp [h]
    · rw [if_neg h]
      have hp : 0 < pool.length := Nat.pos_of_ne_zero h
      have hi : rand step % pool.length < pool.length := Nat.mod_lt _ hp
      simp only [List.length_cons, ih]
      rw [List.length_eraseIdx_of_lt hi]
      omega

theorem choiceNoReplace_length (rand : ℕ → ℕ) (n k : ℕ) :
    (choiceNoReplace rand n k).length = min k n := by
  unfold choiceNoReplace
  rw [choiceAux_length]
  simp

/-- C9: when the population exceeds 100,000 rows, the ML pass takes
the sampling branch — the training set is the mapped 100,000-row
sample — the training set has exactly 100,000 rows, and the fitted
model is applied to every row, so the flag column covers the full
population. -/
theorem ml_sampling_branch_scores_all_rows (fp : List Feat → Feat → Bool)
    (rand : ℕ → ℕ) (xs : List Feat) (h : 100000 < xs.length) :
    mlTrain rand xs
        = (choiceNoReplace rand xs.length 100000).map (fun i => xs.getD i default) ∧
      (mlTrain rand xs).length = 100000 ∧
      (mlPass fp rand xs).length = xs.length := by
  have ht : mlTrain rand xs
      = (choiceNoReplace rand xs.length 100000).map (fun i => xs.getD i default) := by
    unfold mlTrain
    rw [if_pos h]
  refine ⟨ht, ?_, ?_⟩
  · rw [ht, List.length_map, choiceNoReplace_length]
    exact Nat.min_eq_left (Nat.le_of_lt h)
  · unfold mlPass
    rw [List.length_map]

theorem ml_sampling_branch_scores_all_rows_witness :
    100000 < (List.replicate 100001 (default : Feat)).length ∧
      (mlTrain rand0 (List.replicate 100001 (default : Feat))).length = 100000 ∧
      (mlPass fpFalse rand0 (List.replicate 100001 (default : Feat))).length = 100001 := by
  have h : 100000 < (List.replicate 100001 (default : Feat)).length := by
    rw [List.length_replicate]
    norm_num
  obtain ⟨-, h2, h3⟩ := ml_sampling_branch_scores_all_rows fpFalse rand0 _ h
  exact ⟨h, h2, by rw [h3, List.length_replicate]⟩

def rand1 : ℕ → ℕ := fun _ => 1

theorem choiceAux_cons (rand : ℕ → ℕ) (k step : ℕ) (pool : List ℕ)
    (h : ¬ pool.length = 0) :
    choiceAux rand (k + 1) step pool
      = pool.getD (rand step % pool.length) 0 ::
          choiceAux rand k (step + 1) (pool.eraseIdx (rand step % pool.length)) := by
  rw [choiceAux]
  rw [if_neg h]

theorem choiceNoReplace_head (rand : ℕ → ℕ) (n k : ℕ) (hn : 0 < n) (hk : 0 < k) :
    (choiceNoReplace rand n k).getD 0 0 = (List.range n).getD (rand 0 % n) 0 := by
  unfold choiceNoReplace
  obtain ⟨m, rfl⟩ : ∃ m, k = m + 1 := ⟨k - 1, by omega⟩
  rw [choiceAux_cons rand m 0 (List.range n) (by simpa using Nat.pos_iff_ne_zero.mp hn)]
  rw [List.length_range]
  rfl

/-- C3 fails on the code: the 100,000-row sample of line 239 is drawn
by `np.random.choice` from the *global* NumPy random state, which the
script never seeds (only the IsolationForest's `random_state=42` is
fixed).  The sample is therefore a function of the ambient RNG state:
two runs whose global state differs — here, first draw 0 versus first
draw 1 — select different samples from the same 100,001-row
population, refuting the identical-sampling requirement. -/
theorem ml_sample_differs_across_runs :
    choiceNoReplace rand0 100001 100000 ≠ choiceNoReplace rand1 100001 100000 := by
  intro heq
  have h0 : (choiceNoReplace rand0 100001 100000).getD 0 0 = 0 := by
    rw [choiceNoReplace_head rand0 100001 100000 (by norm_num) (by norm_num)]
    rw [show rand0 0 % 100001 = 0 from rfl,
      List.getD_eq_getElem?_getD, List.getElem?_range (by norm_num)]
    rfl
  have h1 : (choiceNoReplace rand1 100001 100000).getD 0 0 = 1 := by
    rw [choiceNoReplace_head rand1 100001 100000 (by norm_num) (by norm_num)]
    rw [show rand1 0 % 100001 = 1 from Nat.mod_eq_of_lt (by norm_num [rand1]),
      List.getD_eq_getElem?_getD, List.getElem?_range (by norm_num)]
    rfl
  rw [heq, h1] at h0
  exact absurd h0 (by norm_num)

theorem length_filterMap_lt {α β : Type} (f : α → Option β) (l : List α)
    (a : α) (ha : a ∈ l) (hf : f a = none) :
    (l.filterMap f).length < l.length := by
  induction l with
  | nil => cases ha
  | cons x xs ih =>
    rcases List.mem_cons.mp ha with rfl | hmem
    · rw [List.filterMap_cons_none hf]
      have := List.length_filterMap_le f xs
      simp only [List.length_cons]
      omega
    · cases hfx : f x with
      | none =>
        rw [List.filterMap_cons_none hfx]
        have := ih hmem
        simp only [List.length_cons]
        omega
      | some b =>
        rw [List.filterMap_cons_some hfx]
        have := ih hmem
        simp only [List.length_cons]
        omega

/-- C8: a chunk from which some required canonical field resolves to
no accepted column alias is skipped entirely: it leaves the
transaction buffer, the benchmark accumulator and the provider rollup
untouched, and removing it from any position of the chunk sequence
does not change the final state built from the prior and subsequent
chunks. -/
theorem schema_mismatch_chunk_skipped (c : Chunk)
    (h : ∃ p ∈ requiredCols, resolveCol (c.cols.map upcase) p = none) :
    (∀ st : PState, processChunk st c = st) ∧
      ∀ pre post : List Chunk,
        processFile (pre ++ c :: post) = processFile (pre ++ post) := by
  obtain ⟨p, hp, hnone⟩ := h
  have hlt : (colMap (c.cols.map upcase)).length < requiredCols.length :=
    length_filterMap_lt _ _ p hp hnone
  have hskip : ∀ st : PState, processChunk st c = st := by
    intro st
    unfold processChunk
    rw [if_pos hlt]
  refine ⟨hskip, ?_⟩
  intro pre post
  unfold processFile
  rw [List.foldl_append, List.foldl_append, List.foldl_cons, hskip]

/-- A valid raw row of provider "P" with the given procedure code. -/
def wRaw (code : String) : RawRow :=
  ⟨some ("P"), code, "2024-01", some 1, some 1, some 1⟩

/-- A chunk whose columns miss every alias of `paid` (and more). -/
def wBadChunk : Chunk := ⟨["BILLING_NPI", "HCPCS_CODE"], [wRaw ("A")]⟩

def wFullCols : List String :=
  ["BILLING_NPI", "SERVICING_NPI", "HCPCS_CODE", "CLAIM_MONTH",
   "BENEFICIARIES", "CLAIMS", "PAID"]

def wGoodChunk : Chunk := ⟨wFullCols, [wRaw ("A")]⟩

theorem schema_mismatch_chunk_skipped_witness :
    (∃ p ∈ requiredCols, resolveCol (wBadChunk.cols.map upcase) p = none) ∧
      processChunk initState wBadChunk = initState ∧
      processFile [wGoodChunk, wBadChunk] = processFile [wGoodChunk] := by
  have h : ∃ p ∈ requiredCols, resolveCol (wBadChunk.cols.map upcase) p = none := by
    refine ⟨("paid", ["TOTAL_PAID", "PAID", "AMOUNT"]), by decide, by decide⟩
  obtain ⟨hskip, happ⟩ := schema_mismatch_chunk_skipped wBadChunk h
  refine ⟨h, hskip initState, ?_⟩
  have := happ [wGoodChunk] []
  simpa using this

/-- The provider's distinct-procedure high-water-mark as stored in the
accumulator (0 when the provider was never seen). -/
def uniqueProcsOf (ps : ProviderStats) (npi : String) : ℕ :=
  ((ps npi).map ProviderStat.unique_procedures).getD 0

/-- The contribution of one chunk to a provider's distinct-procedure
high-water-mark: the batch-level distinct count of its valid rows when
the chunk passes the schema check, 0 when the chunk is skipped. -/
def chunkUnique (c : Chunk) (npi : String) : ℕ :=
  if (colMap (c.cols.map upcase)).length < requiredCols.length then 0
  else nuniqueProcs (validRows c.rows) npi

theorem uniqueProcs_update (ps : ProviderStats) (rows : List Row) (npi : String) :
    uniqueProcsOf (updateProviderStats ps rows) npi
      = max (uniqueProcsOf ps npi) (nuniqueProcs rows npi) := by
  simp only [updateProviderStats, uniqueProcsOf]
  by_cases h : (rows.any fun r => decide (r.billing_npi = npi)) = true
  · rw [if_pos h]
    cases hps : ps npi with
    | none => simp
    | some s => simp
  · rw [if_neg h]
    have hempty : providerRows rows npi = [] := by
      unfold providerRows
      simp only [List.any_eq_true, decide_eq_true_eq, not_exists] at h
      rw [List.filter_eq_nil_iff]
      intro a ha
      simpa using fun hc => (h a) ⟨ha, hc⟩
    have hz : nuniqueProcs rows npi = 0 := by
      unfold nuniqueProcs
      rw [hempty]
      rfl
    rw [hz]
    simp

theorem uniqueProcs_foldl (chunks : List Chunk) :
    ∀ (st : PState) (npi : String),
      uniqueProcsOf (chunks.foldl processChunk st).providers npi
        = (chunks.map (fun c => chunkUnique c npi)).foldl max
            (uniqueProcsOf st.providers npi) := by
  induction chunks with
  | nil => intro st npi; rfl
  | cons c cs ih =>
    intro st npi
    rw [List.foldl_cons, List.map_cons, List.foldl_cons, ih]
    have hstep : uniqueProcsOf (processChunk st c).providers npi
        = max (uniqueProcsOf st.providers npi) (chunkUnique c npi) := by
      unfold processChunk chunkUnique
      by_cases h : (colMap (c.cols.map upcase)).length < requiredCols.length
      · rw [if_pos h, if_pos h]
        simp
      · rw [if_neg h, if_neg h]
        by_cases hlen : (validRows c.rows).length = 0
        · rw [if_pos hlen, List.length_eq_zero.mp hlen,
            show nuniqueProcs [] npi = 0 from rfl]
          simp
        · rw [if_neg hlen]
          exact uniqueProcs_update st.providers (validRows c.rows) npi
    rw [hstep]

/-- Chunk with 3 distinct procedures for provider "P". -/
def wChunkA3 : Chunk := ⟨wFullCols, [wRaw ("A"), wRaw ("B"), wRaw ("C")]⟩

/-- Chunk with 5 distinct procedures for provider "P", 2 of them
("B", "C") overlapping `wChunkA3`. -/
def wChunkB5 : Chunk :=
  ⟨wFullCols, [wRaw ("B"), wRaw ("C"), wRaw ("D"), wRaw ("E"), wRaw ("F")]⟩

/-- C7: a provider's final `unique_procedures` value is the maximum
over chunks of the per-chunk distinct-procedure count — not the
cumulative distinct count; in particular a provider with a 3-distinct
chunk and a 5-distinct chunk (2 overlapping) ends at 5, not 6. -/
theorem unique_procedures_high_water_mark :
    (∀ (chunks : List Chunk) (npi : String),
        uniqueProcsOf (processFile chunks).providers npi
          = (chunks.map (fun c => chunkUnique c npi)).foldl max 0) ∧
      uniqueProcsOf (processFile [wChunkA3, wChunkB5]).providers ("P") = 5 := by
  have hgen : ∀ (chunks : List Chunk) (npi : String),
      uniqueProcsOf (processFile chunks).providers npi
        = (chunks.map (fun c => chunkUnique c npi)).foldl max 0 := by
    intro chunks npi
    unfold processFile
    rw [uniqueProcs_foldl]
    rfl
  refine ⟨hgen, ?_⟩
  rw [hgen]
  decide
